import Mathlib

/-!
Verification of the movie-booking reservation engine (`BookingService`):
a shallow embedding of `src/BookingService.cpp` / `include/BookingService.hpp`.

Hash maps (`std::unordered_map`, `std::unordered_set`) are modelled as
association lists (newest entry in front); `std::vector<bool>` as `List Bool`;
C++ `int`/`long long` results as `Int`; the exception thrown by
`getAvailableSeats` as `Except.error`; text written to `stderr` on the
duplicate-entity path is modelled as the `reportedExistingId` field of the
operation's outcome.
-/

/-- `BookingService::TOTAL_SEATS` (20). -/
abbrev TOTAL_SEATS : Nat := 20

/-- `BookingService::SEAT_ROW` (the row letter). -/
def SEAT_ROW : Char := 'A'

/-- `toLower` helper: per-character ASCII lowercase, as `std::transform` +
`std::tolower` does in the C locale. -/
def toLower (s : String) : String := String.mk (s.data.map Char.toLower)

/-- The digit-accumulation loop of `seatIndexFromLabel` (lines 52–57):
fails on a non-digit character; after each digit the accumulator becomes
`num * 10 + digit`, and the loop breaks early as soon as it exceeds
`TOTAL_SEATS` (returning the accumulator for the final range check). -/
def seatNumFromChars : List Char → Nat → Option Nat
  | [], num => some num
  | c :: rest, num =>
    if c < '0' ∨ '9' < c then none
    else
      let num2 := num * 10 + (c.toNat - Char.toNat '0')
      if TOTAL_SEATS < num2 then some num2
      else seatNumFromChars rest num2

/-- `BookingService::seatIndexFromLabel` (lines 49–60): `-1` when the label is
shorter than two characters or does not start with `SEAT_ROW`, when a
non-digit appears in the suffix, or when the parsed number is outside
`[1, TOTAL_SEATS]`; otherwise the 0-based index `num - 1`. -/
def seatIndexFromLabel (label : String) : Int :=
  match label.data with
  | [] => -1
  | c :: rest =>
    if rest = [] ∨ c ≠ SEAT_ROW then -1
    else
      match seatNumFromChars rest 0 with
      | none => -1
      | some num =>
        if num < 1 ∨ TOTAL_SEATS < num then -1 else Int.ofNat num - 1

/-- `BookingService::seatLabelFromIndex` (lines 73–77): the row letter
followed by the decimal rendering of `idx + 1`. -/
def seatLabelFromIndex (idx : Int) : String :=
  String.singleton SEAT_ROW ++ toString (idx + 1)

/-- `BookingService::Movie`. -/
structure Movie where
  id : Int
  title : String
deriving DecidableEq, Repr

/-- `BookingService::Theater`. -/
structure Theater where
  id : Int
  name : String
deriving DecidableEq, Repr

/-- `BookingService::Show`: seat occupancy (`true` = booked) plus the cached
count of available seats. The per-show mutex carries no state. -/
structure Show where
  movieId : Int
  theaterId : Int
  seats : List Bool
  availableCount : Int
deriving DecidableEq, Repr

/-- Association-list lookup, modelling `unordered_map::find` / `count` /
`at`. -/
def alookup {α β : Type} [DecidableEq α] : List (α × β) → α → Option β
  | [], _ => none
  | p :: rest, key => if p.1 = key then some p.2 else alookup rest key

/-- Association-list update of an existing key, modelling in-place mutation
of the value a map entry points to. -/
def aupdate {α β : Type} [DecidableEq α] : List (α × β) → α → β → List (α × β)
  | [], _, _ => []
  | p :: rest, key, v =>
    if p.1 = key then (p.1, v) :: rest else p :: aupdate rest key v

/-- `unordered_set::insert`. -/
def insertSetI (x : Int) (s : List Int) : List Int :=
  if x ∈ s then s else x :: s

/-- `movieToTheaters_[movieId].insert(theaterId)`: `operator[]`
default-constructs an empty set when the key is absent. -/
def addTheaterForMovie (m : List (Int × List Int)) (movieId theaterId : Int) :
    List (Int × List Int) :=
  match alookup m movieId with
  | none => (movieId, [theaterId]) :: m
  | some s => aupdate m movieId (insertSetI theaterId s)

/-- The whole `BookingService` state: primary maps, derived indexes and the
three id counters. -/
structure BookingService where
  movies : List (Int × Movie)
  theaters : List (Int × Theater)
  shows : List (Int × Show)
  movieNameToId : List (String × Int)
  theaterNameToId : List (String × Int)
  showLookup : List ((Int × Int) × Int)
  activeMovies : List Int
  movieToTheaters : List (Int × List Int)
  movieCounter : Int
  theaterCounter : Int
  showCounter : Int
deriving DecidableEq, Repr

/-- The default-constructed service: empty maps, all counters 0. -/
def BookingService.init : BookingService :=
  ⟨[], [], [], [], [], [], [], [], 0, 0, 0⟩

/-- Outcome of `addMovie` / `addTheater`: the returned id (or `-1`), the
existing id printed in the "already exists" diagnostic (if any), and the
resulting state. -/
structure AddOutcome where
  ret : Int
  reportedExistingId : Option Int
  st : BookingService
deriving DecidableEq, Repr

/-- `BookingService::addMovie` (lines 95–112): case-insensitive duplicate
check against `movieNameToId_`; on duplicate returns `-1` reporting the
existing id and changes nothing; otherwise increments the movie counter and
inserts into both the primary map and the name index. -/
def BookingService.addMovie (svc : BookingService) (title : String) : AddOutcome :=
  let lowerTitle := toLower title
  match alookup svc.movieNameToId lowerTitle with
  | some eid => ⟨-1, some eid, svc⟩
  | none =>
    let id := svc.movieCounter + 1
    ⟨id, none,
      { svc with
        movieCounter := id
        movies := (id, ⟨id, title⟩) :: svc.movies
        movieNameToId := (lowerTitle, id) :: svc.movieNameToId }⟩

/-- `BookingService::addTheater` (lines 129–145): symmetric to `addMovie`. -/
def BookingService.addTheater (svc : BookingService) (name : String) : AddOutcome :=
  let lowerName := toLower name
  match alookup svc.theaterNameToId lowerName with
  | some eid => ⟨-1, some eid, svc⟩
  | none =>
    let id := svc.theaterCounter + 1
    ⟨id, none,
      { svc with
        theaterCounter := id
        theaters := (id, ⟨id, name⟩) :: svc.theaters
        theaterNameToId := (lowerName, id) :: svc.theaterNameToId }⟩

/-- `BookingService::createShow` (lines 168–199): `-1` (state unchanged) when
the movie id or theater id is unknown or a show for the pair exists;
otherwise mints the next show id, creates an all-free show with
`availableCount = TOTAL_SEATS` and updates every derived index. -/
def BookingService.createShow (svc : BookingService) (movieId theaterId : Int) :
    Int × BookingService :=
  if alookup svc.movies movieId = none then (-1, svc)
  else if alookup svc.theaters theaterId = none then (-1, svc)
  else if alookup svc.showLookup (movieId, theaterId) ≠ none then (-1, svc)
  else
    let id := svc.showCounter + 1
    let sh : Show := ⟨movieId, theaterId, List.replicate TOTAL_SEATS false,
      Int.ofNat TOTAL_SEATS⟩
    (id,
      { svc with
        showCounter := id
        shows := (id, sh) :: svc.shows
        showLookup := ((movieId, theaterId), id) :: svc.showLookup
        activeMovies := insertSetI movieId svc.activeMovies
        movieToTheaters := addTheaterForMovie svc.movieToTheaters movieId theaterId })

/-- `BookingService::getAvailableSeats` (lines 218–232): throws
`invalid_argument` on an unknown show id, else the label of every
unoccupied index, in ascending index order. -/
def BookingService.getAvailableSeats (svc : BookingService) (showId : Int) :
    Except String (List String) :=
  match alookup svc.shows showId with
  | none => Except.error ("Invalid show ID")
  | some sh =>
    Except.ok (((List.range TOTAL_SEATS).filter
      (fun i => !(sh.seats.getD i false))).map
        (fun i => seatLabelFromIndex (Int.ofNat i)))

/-- The validation loop of `bookSeats` (lines 265–286): walks the labels,
failing on an undecodable label, on an index already seen in this request
(the `seen` bitset is exactly the set of collected indices) or on an index
already occupied in the show; collects the decoded indices (`tmpIndices`)
in request order. -/
def collectSeatIndices (seats : List Bool) : List String → List Nat → Option (List Nat)
  | [], acc => some acc.reverse
  | lbl :: rest, acc =>
    let idx := seatIndexFromLabel lbl
    if idx < 0 then none
    else
      let i := idx.toNat
      if i ∈ acc then none
      else if seats.getD i false then none
      else collectSeatIndices seats rest (i :: acc)

/-- The commit loop of `bookSeats` (lines 288–291): mark every collected
index occupied. -/
def markSeats (seats : List Bool) : List Nat → List Bool
  | [] => seats
  | i :: rest => markSeats (seats.set i true) rest

/-- `BookingService::bookSeats` (lines 255–293): resolve the show (`false`,
nothing touched, when the id is unknown); validate the whole request; only
when every label passes, mark the indices occupied and decrement the cached
`availableCount` once per booked seat. -/
def BookingService.bookSeats (svc : BookingService) (showId : Int)
    (seatLabels : List String) : Bool × BookingService :=
  match alookup svc.shows showId with
  | none => (false, svc)
  | some sh =>
    match collectSeatIndices sh.seats seatLabels [] with
    | none => (false, svc)
    | some idxs =>
      let sh2 : Show :=
        { sh with
          seats := markSeats sh.seats idxs
          availableCount := sh.availableCount - Int.ofNat idxs.length }
      (true, { svc with shows := aupdate svc.shows showId sh2 })

/-- The operations a client can issue against the service (the state-changing
entry points plus the availability query, which never changes state). -/
inductive Op where
  | addMovie (title : String)
  | addTheater (name : String)
  | createShow (movieId theaterId : Int)
  | bookSeats (showId : Int) (seatLabels : List String)
  | getAvailableSeats (showId : Int)

/-- State transition of one operation. -/
def applyOp (svc : BookingService) : Op → BookingService
  | Op.addMovie t => (svc.addMovie t).st
  | Op.addTheater n => (svc.addTheater n).st
  | Op.createShow m t => (svc.createShow m t).2
  | Op.bookSeats s lbls => (svc.bookSeats s lbls).2
  | Op.getAvailableSeats _ => svc

/-- The state after a sequence of operations from the freshly constructed
service. -/
def runOps (ops : List Op) : BookingService :=
  ops.foldl applyOp BookingService.init

/-- Decimal value of a digit string (the number a well-formed label suffix
encodes), for stating the codec claims. -/
def decDigitsVal (cs : List Char) : Nat :=
  cs.foldl (fun a c => a * 10 + (c.toNat - Char.toNat '0')) 0

example : seatIndexFromLabel ("A1") = 0 := by decide
example : seatIndexFromLabel ("A20") = 19 := by decide
example : seatIndexFromLabel ("A21") = -1 := by decide
example : seatIndexFromLabel ("A0") = -1 := by decide
example : seatIndexFromLabel ("B5") = -1 := by decide
example : seatIndexFromLabel ("A") = -1 := by decide
example : seatIndexFromLabel ("A01") = 0 := by decide
example : seatIndexFromLabel ("A2x") = -1 := by decide
example : seatLabelFromIndex 0 = "A1" := by decide
example : seatIndexFromLabel (seatLabelFromIndex 19) = 19 := by decide

/-! ### Seat codec lemmas -/

/-- A character the parse loop accepts lies between `'0'` and `'9'`. -/
theorem digit_bounds {c : Char} (h : ¬(c < '0' ∨ '9' < c)) :
    48 ≤ c.toNat ∧ c.toNat ≤ 57 := by
  push_neg at h
  obtain ⟨h1, h2⟩ := h
  simp [Char.le_def] at h1 h2
  exact ⟨h1, h2⟩

/-- The accumulator of the parse loop never exceeds
`10 * TOTAL_SEATS + 9` when it starts at most `TOTAL_SEATS`: the early
break keeps every intermediate value at most `TOTAL_SEATS` before the next
digit is folded in. -/
theorem seatNumFromChars_le :
    ∀ (cs : List Char) (acc r : Nat), acc ≤ TOTAL_SEATS →
      seatNumFromChars cs acc = some r → r ≤ 10 * TOTAL_SEATS + 9 := by
  intro cs
  induction cs with
  | nil =>
    intro acc r hacc h
    simp only [seatNumFromChars, Option.some.injEq] at h
    omega
  | cons c rest ih =>
    intro acc r hacc h
    simp only [seatNumFromChars] at h
    split at h
    · simp at h
    · rename_i hdig
      have hd := digit_bounds hdig
      have h48 : Char.toNat '0' = 48 := rfl
      split at h
      · simp only [Option.some.injEq] at h
        omega
      · exact ih _ r (by omega) h

/-- If some character of the suffix is not a digit, the parse loop either
fails or breaks early with an accumulator above `TOTAL_SEATS`. -/
theorem seatNumFromChars_nondigit :
    ∀ (cs : List Char) (acc : Nat), (∃ c ∈ cs, (c < '0' ∨ '9' < c)) →
      seatNumFromChars cs acc = none ∨
        ∃ r, seatNumFromChars cs acc = some r ∧ TOTAL_SEATS < r := by
  intro cs
  induction cs with
  | nil =>
    intro acc h
    simp at h
  | cons c rest ih =>
    intro acc h
    simp only [seatNumFromChars]
    split
    · exact Or.inl rfl
    · rename_i hdig
      split
      · rename_i hbig
        exact Or.inr ⟨_, rfl, hbig⟩
      · apply ih
        obtain ⟨d, hd, hprop⟩ := h
        cases List.mem_cons.mp hd with
        | inl he =>
          subst he
          exact absurd hprop hdig
        | inr ht => exact ⟨d, ht, hprop⟩

/-- Folding digits onto an accumulator never decreases it. -/
theorem decDigits_foldl_mono :
    ∀ (cs : List Char) (a : Nat),
      a ≤ cs.foldl (fun x c => x * 10 + (c.toNat - Char.toNat '0')) a := by
  intro cs
  induction cs with
  | nil =>
    intro a
    simp
  | cons c rest ih =>
    intro a
    simp only [List.foldl_cons]
    exact le_trans (by omega) (ih (a * 10 + (c.toNat - Char.toNat '0')))

/-- On an all-digit suffix the parse loop succeeds, returning either the
exact decimal value or (when it broke early) a value above `TOTAL_SEATS`
that the decimal value dominates. -/
theorem seatNumFromChars_digits :
    ∀ (cs : List Char) (acc : Nat), (∀ c ∈ cs, ¬(c < '0' ∨ '9' < c)) →
      ∃ r, seatNumFromChars cs acc = some r ∧
        (r = cs.foldl (fun x c => x * 10 + (c.toNat - Char.toNat '0')) acc ∨
          (TOTAL_SEATS < r ∧
            r ≤ cs.foldl (fun x c => x * 10 + (c.toNat - Char.toNat '0')) acc)) := by
  intro cs
  induction cs with
  | nil =>
    intro acc _
    exact ⟨acc, rfl, Or.inl rfl⟩
  | cons c rest ih =>
    intro acc h
    have hdig : ¬(c < '0' ∨ '9' < c) := h c (List.mem_cons_self c rest)
    simp only [seatNumFromChars, List.foldl_cons, if_neg hdig]
    by_cases hbig : TOTAL_SEATS < acc * 10 + (c.toNat - Char.toNat '0')
    · rw [if_pos hbig]
      exact ⟨_, rfl, Or.inr ⟨hbig, decDigits_foldl_mono rest _⟩⟩
    · rw [if_neg hbig]
      exact ih _ (fun d hd => h d (List.mem_cons_of_mem c hd))

/-- The decoded index is `-1` or lies in `[0, TOTAL_SEATS)`. -/
theorem seatIndexFromLabel_cases (label : String) :
    seatIndexFromLabel label = -1 ∨
      (0 ≤ seatIndexFromLabel label ∧
        seatIndexFromLabel label < Int.ofNat TOTAL_SEATS) := by
  rcases hd : label.data with _ | ⟨c, rest⟩
  · simp only [seatIndexFromLabel, hd]
    exact Or.inl trivial
  · simp only [seatIndexFromLabel, hd]
    by_cases hguard : rest = [] ∨ c ≠ SEAT_ROW
    · rw [if_pos hguard]
      exact Or.inl rfl
    · rw [if_neg hguard]
      cases hp : seatNumFromChars rest 0 with
      | none => exact Or.inl rfl
      | some num =>
        dsimp only
        by_cases hrange : num < 1 ∨ TOTAL_SEATS < num
        · rw [if_pos hrange]
          exact Or.inl rfl
        · rw [if_neg hrange]
          right
          push_neg at hrange
          simp only [Int.ofNat_eq_coe]
          constructor
          · omega
          · omega

/-- Round-trip of the seat codec on every valid index, by evaluation. -/
theorem seat_roundtrip_nat (i : Nat) (h : i < TOTAL_SEATS) :
    seatIndexFromLabel (seatLabelFromIndex (Int.ofNat i)) = Int.ofNat i := by
  have hall : ∀ j : Fin TOTAL_SEATS,
      seatIndexFromLabel (seatLabelFromIndex (Int.ofNat j.val)) = Int.ofNat j.val := by
    decide
  exact hall ⟨i, h⟩

/-- **C4**: for every seat index `i` in `[0, TOTAL_SEATS)`, decoding the label
produced for `i` yields `i` back: `seatIndexFromLabel (seatLabelFromIndex i) = i`. -/
theorem c4_seat_codec_roundtrip :
    ∀ i : Fin TOTAL_SEATS,
      seatIndexFromLabel (seatLabelFromIndex (Int.ofNat i.val)) = Int.ofNat i.val := by
  intro i
  exact seat_roundtrip_nat i.val i.isLt

/-- **C5**: every input outside the label grammar — empty, wrong row letter,
empty suffix, a non-digit in the suffix, or a suffix whose decimal value is
outside `[1, TOTAL_SEATS]` — makes `seatIndexFromLabel` return the sentinel
`-1`; and the parse loop's accumulator stays bounded by
`10 * TOTAL_SEATS + 9` (it stops early once the value exceeds `TOTAL_SEATS`),
so it never overflows. -/
theorem c5_invalid_label_sentinel_and_bounded_accumulator :
    (∀ label : String,
      (label.data = [] ∨
        label.data.head? ≠ some SEAT_ROW ∨
        label.data.tail = [] ∨
        (∃ c ∈ label.data.tail, (c < '0' ∨ '9' < c)) ∨
        (decDigitsVal label.data.tail < 1 ∨
          TOTAL_SEATS < decDigitsVal label.data.tail)) →
      seatIndexFromLabel label = -1) ∧
    (∀ (cs : List Char) (acc r : Nat), acc ≤ TOTAL_SEATS →
      seatNumFromChars cs acc = some r → r ≤ 10 * TOTAL_SEATS + 9) := by
  constructor
  · intro label hbad
    rcases hd : label.data with _ | ⟨c, rest⟩
    · simp only [seatIndexFromLabel, hd]
    · rw [hd] at hbad
      simp only [List.head?_cons, List.tail_cons, ne_eq, Option.some.injEq] at hbad
      simp only [seatIndexFromLabel, hd]
      by_cases hguard : rest = [] ∨ c ≠ SEAT_ROW
      · rw [if_pos hguard]
      · rw [if_neg hguard]
        push_neg at hguard
        rcases hbad with h | h | h | h | h
        · exact absurd h (List.cons_ne_nil c rest)
        · exact absurd hguard.2 h
        · exact absurd h hguard.1
        · rcases seatNumFromChars_nondigit rest 0 h with hn | ⟨r, hr, hrb⟩
          · rw [hn]
          · rw [hr]
            dsimp only
            rw [if_pos (Or.inr hrb)]
        · by_cases hall : ∀ d ∈ rest, ¬(d < '0' ∨ '9' < d)
          · obtain ⟨r, hr, hcase⟩ := seatNumFromChars_digits rest 0 hall
            rw [hr]
            dsimp only
            have hfold :
                List.foldl (fun x c => x * 10 + (c.toNat - Char.toNat '0')) 0 rest =
                  decDigitsVal rest := rfl
            rw [hfold] at hcase
            rcases hcase with hcase | ⟨hgt, _⟩
            · rw [if_pos (by omega)]
            · rw [if_pos (Or.inr hgt)]
          · push_neg at hall
            rcases seatNumFromChars_nondigit rest 0 hall with hn | ⟨r, hr, hrb⟩
            · rw [hn]
            · rw [hr]
              dsimp only
              rw [if_pos (Or.inr hrb)]
  · exact seatNumFromChars_le

/-- **C9**: an unknown show id makes `getAvailableSeats` fail exceptionally
(`Except.error`, distinct from a boolean failure) while `bookSeats` returns
plain `false` with the state untouched. -/
theorem c9_unknown_show_id_error_vs_boolean_failure
    (svc : BookingService) (showId : Int) (lbls : List String)
    (h : alookup svc.shows showId = none) :
    svc.getAvailableSeats showId = Except.error ("Invalid show ID") ∧
    svc.bookSeats showId lbls = (false, svc) := by
  unfold BookingService.getAvailableSeats BookingService.bookSeats
  rw [h]
  exact ⟨rfl, rfl⟩

/-- Witness for C9 at a concrete input: the fresh service knows no show `1`. -/
theorem c9_unknown_show_id_error_vs_boolean_failure_witness :
    BookingService.init.getAvailableSeats 1 = Except.error ("Invalid show ID") ∧
    BookingService.init.bookSeats 1 [("A1")] = (false, BookingService.init) :=
  c9_unknown_show_id_error_vs_boolean_failure BookingService.init 1 [("A1")] (by decide)

/-! ### Association list and seat vector lemmas -/

/-- A successful lookup's pair is a member of the list. -/
theorem alookup_mem {α β : Type} [DecidableEq α] :
    ∀ (m : List (α × β)) (k : α) (v : β), alookup m k = some v → (k, v) ∈ m := by
  intro m
  induction m with
  | nil =>
    intro k v h
    simp [alookup] at h
  | cons p rest ih =>
    intro k v h
    simp only [alookup] at h
    split at h
    · rename_i he
      simp only [Option.some.injEq] at h
      have hp : (k, v) = p := by rw [← he, ← h]
      rw [hp]
      exact List.mem_cons_self p rest
    · exact List.mem_cons_of_mem p (ih k v h)

/-- Lookup misses when no entry carries the key. -/
theorem alookup_eq_none {α β : Type} [DecidableEq α] :
    ∀ (m : List (α × β)) (k : α), (∀ p ∈ m, p.1 ≠ k) → alookup m k = none := by
  intro m
  induction m with
  | nil =>
    intro k _
    rfl
  | cons p rest ih =>
    intro k h
    simp only [alookup]
    rw [if_neg (h p (List.mem_cons_self p rest))]
    exact ih k (fun q hq => h q (List.mem_cons_of_mem p hq))

/-- Every entry of an update is an old entry or the new pair. -/
theorem aupdate_mem {α β : Type} [DecidableEq α] :
    ∀ (m : List (α × β)) (k : α) (v : β) (p : α × β),
      p ∈ aupdate m k v → p ∈ m ∨ p = (k, v) := by
  intro m
  induction m with
  | nil =>
    intro k v p h
    simp [aupdate] at h
  | cons q rest ih =>
    intro k v p h
    simp only [aupdate] at h
    split at h
    · rename_i he
      cases List.mem_cons.mp h with
      | inl h0 =>
        right
        rw [h0, he]
      | inr h1 =>
        left
        exact List.mem_cons_of_mem q h1
    · cases List.mem_cons.mp h with
      | inl h0 =>
        left
        rw [h0]
        exact List.mem_cons_self q rest
      | inr h1 =>
        cases ih k v p h1 with
        | inl h2 => exact Or.inl (List.mem_cons_of_mem q h2)
        | inr h2 => exact Or.inr h2

/-- Updating a present key makes lookup return the new value. -/
theorem alookup_aupdate_self {α β : Type} [DecidableEq α] :
    ∀ (m : List (α × β)) (k : α) (v : β), alookup m k ≠ none →
      alookup (aupdate m k v) k = some v := by
  intro m
  induction m with
  | nil =>
    intro k v h
    exact absurd rfl h
  | cons q rest ih =>
    intro k v h
    simp only [aupdate]
    by_cases he : q.1 = k
    · rw [if_pos he]
      simp only [alookup]
      rw [if_pos he]
    · rw [if_neg he]
      simp only [alookup]
      rw [if_neg he]
      apply ih
      simp only [alookup, if_neg he] at h
      exact h

/-- Updating one key leaves lookups of other keys unchanged. -/
theorem alookup_aupdate_ne {α β : Type} [DecidableEq α] :
    ∀ (m : List (α × β)) (k k2 : α) (v : β), k ≠ k2 →
      alookup (aupdate m k v) k2 = alookup m k2 := by
  intro m
  induction m with
  | nil =>
    intro k k2 v _
    rfl
  | cons q rest ih =>
    intro k k2 v hne
    simp only [aupdate]
    by_cases he : q.1 = k
    · rw [if_pos he]
      have hq2 : q.1 ≠ k2 := by
        rw [he]
        exact hne
      simp only [alookup]
      rw [if_neg hq2, if_neg hq2]
    · rw [if_neg he]
      simp only [alookup]
      by_cases h2 : q.1 = k2
      · rw [if_pos h2, if_pos h2]
      · rw [if_neg h2, if_neg h2]
        exact ih k k2 v hne

/-- An update whose new value the predicate judges like the old one keeps
`countP` unchanged. -/
theorem countP_aupdate {α β : Type} [DecidableEq α] (f : α × β → Bool) :
    ∀ (m : List (α × β)) (k : α) (v v0 : β), alookup m k = some v0 →
      f (k, v) = f (k, v0) →
      (aupdate m k v).countP f = m.countP f := by
  intro m
  induction m with
  | nil =>
    intro k v v0 h _
    simp [alookup] at h
  | cons q rest ih =>
    intro k v v0 h hf
    simp only [alookup] at h
    simp only [aupdate]
    split at h
    · rename_i he
      rw [if_pos he]
      simp only [Option.some.injEq] at h
      simp only [List.countP_cons]
      have hfq : f (q.1, v) = f q := by
        rw [he, hf, ← h, ← he]
      rw [hfq]
    · rename_i he
      rw [if_neg he]
      simp only [List.countP_cons]
      rw [ih k v v0 h hf]

/-- `getD` after `set` at the written position. -/
theorem getD_set_self {l : List Bool} {i : Nat} (h : i < l.length) (b d : Bool) :
    (l.set i b).getD i d = b := by
  simp [List.getD_eq_getElem?_getD, List.getElem?_set_eq_of_lt b h]

/-- `getD` after `set` at another position. -/
theorem getD_set_ne {l : List Bool} {i j : Nat} (h : i ≠ j) (b d : Bool) :
    (l.set i b).getD j d = l.getD j d := by
  simp [List.getD_eq_getElem?_getD, List.getElem?_set_ne h]

/-- Setting a free seat occupied lowers the free count by one. -/
theorem countP_set_true :
    ∀ (l : List Bool) (i : Nat), i < l.length → l.getD i false = false →
      (l.set i true).countP (fun b => !b) + 1 = l.countP (fun b => !b) := by
  intro l
  induction l with
  | nil =>
    intro i h _
    simp at h
  | cons a rest ih =>
    intro i hi hfree
    cases i with
    | zero =>
      simp only [List.getD_cons_zero] at hfree
      subst hfree
      simp [List.countP_cons]
    | succ n =>
      simp only [List.getD_cons_succ] at hfree
      simp only [List.length_cons, Nat.succ_lt_succ_iff] at hi
      simp only [List.set_cons_succ, List.countP_cons]
      have := ih n hi hfree
      omega

/-- Marking preserves the seat vector's length. -/
theorem markSeats_length :
    ∀ (idxs : List Nat) (seats : List Bool),
      (markSeats seats idxs).length = seats.length := by
  intro idxs
  induction idxs with
  | nil =>
    intro seats
    rfl
  | cons i rest ih =>
    intro seats
    simp only [markSeats]
    rw [ih, List.length_set]

/-- Occupancy after the commit loop: a seat is occupied iff it was occupied
before or its index is in the committed batch. -/
theorem markSeats_getD :
    ∀ (idxs : List Nat) (seats : List Bool) (j : Nat), j < seats.length →
      (markSeats seats idxs).getD j false =
        (seats.getD j false || decide (j ∈ idxs)) := by
  intro idxs
  induction idxs with
  | nil =>
    intro seats j _
    simp [markSeats]
  | cons i rest ih =>
    intro seats j hj
    simp only [markSeats]
    rw [ih (seats.set i true) j (by rw [List.length_set]; exact hj)]
    by_cases hij : i = j
    · subst hij
      rw [getD_set_self hj]
      simp
    · rw [getD_set_ne hij]
      simp [List.mem_cons, Ne.symm hij]

/-- The commit loop books exactly the batch: the free count drops by the
batch size when the batch's indices are distinct, in range and free. -/
theorem markSeats_countP :
    ∀ (idxs : List Nat) (seats : List Bool), idxs.Nodup →
      (∀ i ∈ idxs, i < seats.length ∧ seats.getD i false = false) →
      (markSeats seats idxs).countP (fun b => !b) + idxs.length =
        seats.countP (fun b => !b) := by
  intro idxs
  induction idxs with
  | nil =>
    intro seats _ _
    simp [markSeats]
  | cons i rest ih =>
    intro seats hnd hok
    simp only [markSeats]
    have hi := hok i (List.mem_cons_self i rest)
    have hstep := countP_set_true seats i hi.1 hi.2
    have hrest : ∀ j ∈ rest,
        j < (seats.set i true).length ∧ (seats.set i true).getD j false = false := by
      intro j hj
      have hji : i ≠ j := by
        intro he
        subst he
        exact (List.nodup_cons.mp hnd).1 hj
      refine ⟨?_, ?_⟩
      · rw [List.length_set]
        exact (hok j (List.mem_cons_of_mem i hj)).1
      · rw [getD_set_ne hji]
        exact (hok j (List.mem_cons_of_mem i hj)).2
    have hrec := ih (seats.set i true) (List.nodup_cons.mp hnd).2 hrest
    simp only [List.length_cons]
    omega

/-! ### Booking validation loop lemmas -/

/-- Soundness of the validation loop: a successful pass decodes every label
to a nonnegative index, collects exactly the decoded indices after the
accumulator, keeps them disjoint from the accumulator, finds every decoded
seat free, and yields a duplicate-free batch when the accumulator was
duplicate-free. -/
theorem collectSeatIndices_sound (seats : List Bool) :
    ∀ (lbls : List String) (acc idxs : List Nat),
      collectSeatIndices seats lbls acc = some idxs →
      idxs = acc.reverse ++ lbls.map (fun l => (seatIndexFromLabel l).toNat) ∧
      (∀ l ∈ lbls, 0 ≤ seatIndexFromLabel l) ∧
      (∀ l ∈ lbls, (seatIndexFromLabel l).toNat ∉ acc) ∧
      (∀ l ∈ lbls, seats.getD (seatIndexFromLabel l).toNat false = false) ∧
      (acc.Nodup → idxs.Nodup) := by
  intro lbls
  induction lbls with
  | nil =>
    intro acc idxs h
    simp only [collectSeatIndices, Option.some.injEq] at h
    subst h
    refine ⟨by simp, by simp, by simp, by simp, ?_⟩
    intro hnd
    exact List.nodup_reverse.mpr hnd
  | cons lbl rest ih =>
    intro acc idxs h
    simp only [collectSeatIndices] at h
    split at h
    · exact absurd h (by simp)
    · rename_i hvalid
      split at h
      · exact absurd h (by simp)
      · rename_i hnotmem
        split at h
        · exact absurd h (by simp)
        · rename_i hfree
          obtain ⟨heq, hv, hnm, hf, hnd⟩ :=
            ih ((seatIndexFromLabel lbl).toNat :: acc) idxs h
          refine ⟨?_, ?_, ?_, ?_, ?_⟩
          · rw [heq]
            simp [List.reverse_cons, List.append_assoc]
          · intro l hl
            cases List.mem_cons.mp hl with
            | inl he =>
              subst he
              omega
            | inr ht => exact hv l ht
          · intro l hl
            cases List.mem_cons.mp hl with
            | inl he =>
              subst he
              exact hnotmem
            | inr ht =>
              intro hmem
              exact hnm l ht (List.mem_cons_of_mem _ hmem)
          · intro l hl
            cases List.mem_cons.mp hl with
            | inl he =>
              subst he
              simpa using hfree
            | inr ht => exact hf l ht
          · intro hndacc
            exact hnd (List.nodup_cons.mpr ⟨hnotmem, hndacc⟩)

/-- Completeness of the validation loop: a request of decodable labels with
duplicate-free decoded indices, disjoint from the accumulator and all free,
passes and collects exactly those indices. -/
theorem collectSeatIndices_complete (seats : List Bool) :
    ∀ (lbls : List String) (acc : List Nat),
      (∀ l ∈ lbls, 0 ≤ seatIndexFromLabel l) →
      (lbls.map (fun l => (seatIndexFromLabel l).toNat)).Nodup →
      (∀ l ∈ lbls, (seatIndexFromLabel l).toNat ∉ acc) →
      (∀ l ∈ lbls, seats.getD (seatIndexFromLabel l).toNat false = false) →
      collectSeatIndices seats lbls acc =
        some (acc.reverse ++ lbls.map (fun l => (seatIndexFromLabel l).toNat)) := by
  intro lbls
  induction lbls with
  | nil =>
    intro acc _ _ _ _
    simp [collectSeatIndices]
  | cons lbl rest ih =>
    intro acc hv hnd hnm hf
    have hv0 := hv lbl (List.mem_cons_self lbl rest)
    have hmap : (rest.map (fun l => (seatIndexFromLabel l).toNat)).Nodup ∧
        (seatIndexFromLabel lbl).toNat ∉
          rest.map (fun l => (seatIndexFromLabel l).toNat) := by
      rw [List.map_cons] at hnd
      have h2 := List.nodup_cons.mp hnd
      exact ⟨h2.2, h2.1⟩
    simp only [collectSeatIndices]
    rw [if_neg (by omega)]
    rw [if_neg (hnm lbl (List.mem_cons_self lbl rest))]
    rw [if_neg (by rw [hf lbl (List.mem_cons_self lbl rest)]; decide)]
    rw [ih ((seatIndexFromLabel lbl).toNat :: acc)
      (fun l hl => hv l (List.mem_cons_of_mem lbl hl))
      hmap.1
      (by
        intro l hl hmem
        cases List.mem_cons.mp hmem with
        | inl he =>
          exact hmap.2 (he ▸ List.mem_map_of_mem (fun l => (seatIndexFromLabel l).toNat) hl)
        | inr ht => exact hnm l (List.mem_cons_of_mem lbl hl) ht)
      (fun l hl => hf l (List.mem_cons_of_mem lbl hl))]
    congr 1
    simp [List.reverse_cons, List.append_assoc]

/-! ### Booking behaviour -/

/-- `bookSeats` when the validation loop rejects the request: plain failure,
state untouched. -/
theorem bookSeats_of_collect_none (svc : BookingService) (showId : Int) (sh : Show)
    (lbls : List String)
    (hsh : alookup svc.shows showId = some sh)
    (hc : collectSeatIndices sh.seats lbls [] = none) :
    svc.bookSeats showId lbls = (false, svc) := by
  unfold BookingService.bookSeats
  rw [hsh]
  dsimp only
  rw [hc]

/-- The show as the commit loop leaves it: marked seats, cached count lowered
by the batch size. -/
def bookedShow (sh : Show) (idxs : List Nat) : Show :=
  { sh with
    seats := markSeats sh.seats idxs
    availableCount := sh.availableCount - Int.ofNat idxs.length }

/-- `bookSeats` when the validation loop accepts the request: the show is
replaced by its marked version with the cached count lowered by the batch
size. -/
theorem bookSeats_of_collect_some (svc : BookingService) (showId : Int) (sh : Show)
    (lbls : List String) (idxs : List Nat)
    (hsh : alookup svc.shows showId = some sh)
    (hc : collectSeatIndices sh.seats lbls [] = some idxs) :
    svc.bookSeats showId lbls =
      (true, { svc with shows := aupdate svc.shows showId (bookedShow sh idxs) }) := by
  unfold BookingService.bookSeats bookedShow
  rw [hsh]
  dsimp only
  rw [hc]

/-- Sample run: movie "Inception" (id 1), theater "Cineplex" (id 1), one show
(id 1) of the pair, all seats free. -/
def sampleOps : List Op :=
  [Op.addMovie ("Inception"), Op.addTheater ("Cineplex"), Op.createShow 1 1]

/-- The state the sample run reaches. -/
def sampleSvc : BookingService := runOps sampleOps

/-- The freshly created sample show. -/
def sampleShow : Show :=
  ⟨1, 1, List.replicate TOTAL_SEATS false, Int.ofNat TOTAL_SEATS⟩

example : alookup sampleSvc.shows 1 = some sampleShow := by decide

/-- **C1**: a request containing a malformed label, a duplicated decoded
index, or an already-occupied seat makes `bookSeats` fail with the whole
state — in particular the show's seat vector and cached count — unchanged. -/
theorem c1_failed_booking_changes_nothing
    (svc : BookingService) (showId : Int) (sh : Show) (lbls : List String)
    (hsh : alookup svc.shows showId = some sh)
    (hbad :
      (∃ l ∈ lbls, seatIndexFromLabel l < 0) ∨
      ¬ (lbls.map (fun l => seatIndexFromLabel l)).Nodup ∨
      (∃ l ∈ lbls, 0 ≤ seatIndexFromLabel l ∧
        sh.seats.getD (seatIndexFromLabel l).toNat false = true)) :
    svc.bookSeats showId lbls = (false, svc) := by
  cases hc : collectSeatIndices sh.seats lbls [] with
  | none => exact bookSeats_of_collect_none svc showId sh lbls hsh hc
  | some idxs =>
    exfalso
    obtain ⟨heq, hv, _, hf, hnd⟩ := collectSeatIndices_sound sh.seats lbls [] idxs hc
    rcases hbad with ⟨l, hl, hneg⟩ | hdup | ⟨l, hl, _, hocc⟩
    · have := hv l hl
      omega
    · apply hdup
      have hidx : idxs.Nodup := hnd List.nodup_nil
      rw [heq] at hidx
      simp only [List.reverse_nil, List.nil_append] at hidx
      have hmm : (lbls.map (fun l => seatIndexFromLabel l)).map Int.toNat =
          lbls.map (fun l => (seatIndexFromLabel l).toNat) := by
        rw [List.map_map]
        rfl
      rw [← hmm] at hidx
      exact List.Nodup.of_map Int.toNat hidx
    · rw [hf l hl] at hocc
      exact Bool.false_ne_true hocc

/-- Witness for C1: booking the same label twice on the sample show fails and
leaves the state unchanged. -/
theorem c1_failed_booking_changes_nothing_witness :
    sampleSvc.bookSeats 1 [("A1"), ("A1")] = (false, sampleSvc) :=
  c1_failed_booking_changes_nothing sampleSvc 1 sampleShow [("A1"), ("A1")]
    (by decide) (Or.inr (Or.inl (by decide)))

/-- **C10**: duplicate detection is by decoded index, not by label text — two
different strings decoding to the same valid index make the request fail
with the state unchanged. -/
theorem c10_duplicate_by_decoded_index
    (svc : BookingService) (showId : Int) (sh : Show) (lbls : List String)
    (l1 l2 : String)
    (hsh : alookup svc.shows showId = some sh)
    (h1 : l1 ∈ lbls) (h2 : l2 ∈ lbls) (hne : l1 ≠ l2)
    (_hvalid : 0 ≤ seatIndexFromLabel l1)
    (hsame : seatIndexFromLabel l1 = seatIndexFromLabel l2) :
    svc.bookSeats showId lbls = (false, svc) := by
  cases hc : collectSeatIndices sh.seats lbls [] with
  | none => exact bookSeats_of_collect_none svc showId sh lbls hsh hc
  | some idxs =>
    exfalso
    obtain ⟨heq, _, _, _, hnd⟩ := collectSeatIndices_sound sh.seats lbls [] idxs hc
    have hidx : (lbls.map (fun l => (seatIndexFromLabel l).toNat)).Nodup := by
      have h0 := hnd List.nodup_nil
      rw [heq] at h0
      simpa using h0
    have hinj := List.inj_on_of_nodup_map hidx
    exact hne (hinj h1 h2 (by rw [hsame]))

/-- Witness for C10: "A1" and "A01" decode to the same index 0, so booking
them together fails even though the strings differ. -/
theorem c10_duplicate_by_decoded_index_witness :
    sampleSvc.bookSeats 1 [("A1"), ("A01")] = (false, sampleSvc) :=
  c10_duplicate_by_decoded_index sampleSvc 1 sampleShow [("A1"), ("A01")]
    ("A1") ("A01") (by decide) (by decide) (by decide) (by decide) (by decide)
    (by decide)

/-- **C2**: booking K decodable labels with pairwise-distinct decoded indices,
all currently free, on an existing show succeeds, marks exactly those seats
occupied, lowers the cached count by exactly K, and none of those labels
appears in a subsequent `getAvailableSeats` snapshot. -/
theorem c2_successful_booking
    (svc : BookingService) (showId : Int) (sh : Show) (lbls : List String)
    (hsh : alookup svc.shows showId = some sh)
    (hlen : sh.seats.length = TOTAL_SEATS)
    (hvalid : ∀ l ∈ lbls, 0 ≤ seatIndexFromLabel l)
    (hdistinct : (lbls.map (fun l => seatIndexFromLabel l)).Nodup)
    (hfree : ∀ l ∈ lbls, sh.seats.getD (seatIndexFromLabel l).toNat false = false) :
    (svc.bookSeats showId lbls).1 = true ∧
    ∃ sh2, alookup (svc.bookSeats showId lbls).2.shows showId = some sh2 ∧
      sh2.availableCount = sh.availableCount - Int.ofNat lbls.length ∧
      (∀ j : Fin TOTAL_SEATS,
        (sh2.seats.getD j.val false = true ↔
          (sh.seats.getD j.val false = true ∨
            Int.ofNat j.val ∈ lbls.map (fun l => seatIndexFromLabel l)))) ∧
      (∀ l ∈ lbls, ∀ out,
        (svc.bookSeats showId lbls).2.getAvailableSeats showId = Except.ok out →
          l ∉ out) := by
  have hndNat : (lbls.map (fun l => (seatIndexFromLabel l).toNat)).Nodup := by
    have hmm : (lbls.map (fun l => seatIndexFromLabel l)).map Int.toNat =
        lbls.map (fun l => (seatIndexFromLabel l).toNat) := by
      rw [List.map_map]
      rfl
    rw [← hmm]
    apply List.Nodup.map_on ?_ hdistinct
    intro x hx y hy hxy
    rcases List.mem_map.mp hx with ⟨lx, hlx, hex⟩
    rcases List.mem_map.mp hy with ⟨ly, hly, hey⟩
    have h1 := hvalid lx hlx
    have h2 := hvalid ly hly
    omega
  have hc := collectSeatIndices_complete sh.seats lbls [] hvalid hndNat (by simp) hfree
  rw [List.reverse_nil, List.nil_append] at hc
  have hres := bookSeats_of_collect_some svc showId sh lbls _ hsh hc
  rw [hres]
  dsimp only
  have hlook : alookup
      (aupdate svc.shows showId
        (bookedShow sh (lbls.map (fun l => (seatIndexFromLabel l).toNat)))) showId =
      some (bookedShow sh (lbls.map (fun l => (seatIndexFromLabel l).toNat))) :=
    alookup_aupdate_self svc.shows showId _ (by rw [hsh]; simp)
  refine ⟨rfl, bookedShow sh (lbls.map (fun l => (seatIndexFromLabel l).toNat)),
    hlook, ?_, ?_, ?_⟩
  · unfold bookedShow
    dsimp only
    rw [List.length_map]
  · intro j
    have hjlen : j.val < sh.seats.length := by
      rw [hlen]
      exact j.isLt
    have hmem : j.val ∈ lbls.map (fun l => (seatIndexFromLabel l).toNat) ↔
        Int.ofNat j.val ∈ lbls.map (fun l => seatIndexFromLabel l) := by
      constructor
      · intro hj
        rcases List.mem_map.mp hj with ⟨l, hl, he⟩
        have := hvalid l hl
        exact List.mem_map.mpr ⟨l, hl, by simp only [Int.ofNat_eq_coe]; omega⟩
      · intro hj
        rcases List.mem_map.mp hj with ⟨l, hl, he⟩
        simp only [Int.ofNat_eq_coe] at he
        exact List.mem_map.mpr ⟨l, hl, by omega⟩
    unfold bookedShow
    dsimp only
    rw [markSeats_getD _ _ _ hjlen]
    simp only [Bool.or_eq_true, decide_eq_true_eq]
    rw [hmem]
  · intro l hl out hout
    unfold BookingService.getAvailableSeats at hout
    dsimp only at hout
    rw [hlook] at hout
    dsimp only at hout
    simp only [Except.ok.injEq] at hout
    subst hout
    intro hmem2
    rcases List.mem_map.mp hmem2 with ⟨i, hi, hlabel⟩
    have hi2 := List.mem_filter.mp hi
    have hiR : i < TOTAL_SEATS := List.mem_range.mp hi2.1
    have hfree2 :
        (bookedShow sh (lbls.map (fun l2 => (seatIndexFromLabel l2).toNat))).seats.getD
          i false = false := by
      have hb := hi2.2
      simp only [Bool.not_eq_true'] at hb
      exact hb
    have hdec : seatIndexFromLabel l = Int.ofNat i := by
      rw [← hlabel]
      exact seat_roundtrip_nat i hiR
    have hidxmem : i ∈ lbls.map (fun l2 => (seatIndexFromLabel l2).toNat) :=
      List.mem_map.mpr ⟨l, hl, by simp only [Int.ofNat_eq_coe] at hdec; omega⟩
    have hmark :
        (bookedShow sh (lbls.map (fun l2 => (seatIndexFromLabel l2).toNat))).seats.getD
          i false = true := by
      unfold bookedShow
      dsimp only
      rw [markSeats_getD _ _ _ (by rw [hlen]; exact hiR)]
      simp [hidxmem]
    rw [hmark] at hfree2
    exact absurd hfree2 (by decide)

/-- Witness for C2: booking "A1" and "A2" on the fresh sample show succeeds
with the stated effects. -/
theorem c2_successful_booking_witness :
    (sampleSvc.bookSeats 1 [("A1"), ("A2")]).1 = true ∧
    ∃ sh2, alookup (sampleSvc.bookSeats 1 [("A1"), ("A2")]).2.shows 1 = some sh2 ∧
      sh2.availableCount = sampleShow.availableCount - Int.ofNat ([("A1"), ("A2")] : List String).length ∧
      (∀ j : Fin TOTAL_SEATS,
        (sh2.seats.getD j.val false = true ↔
          (sampleShow.seats.getD j.val false = true ∨
            Int.ofNat j.val ∈ [("A1"), ("A2")].map (fun l => seatIndexFromLabel l)))) ∧
      (∀ l ∈ [("A1"), ("A2")], ∀ out,
        (sampleSvc.bookSeats 1 [("A1"), ("A2")]).2.getAvailableSeats 1 = Except.ok out →
          l ∉ out) :=
  c2_successful_booking sampleSvc 1 sampleShow [("A1"), ("A2")]
    (by decide) (by decide) (by decide) (by decide) (by decide)

/-! ### Duplicate-entity handling -/

/-- **C6 counterexample**: after `addMovie "Inception"` returned id 1, the
call `addMovie "INCEPTION"` does *not* return the id of the first — it
returns the sentinel `-1` (the existing id appears only in the diagnostic). -/
theorem c6_counterexample :
    (BookingService.init.addMovie ("Inception")).ret = 1 ∧
    ((BookingService.init.addMovie ("Inception")).st.addMovie ("INCEPTION")).ret = -1 ∧
    ((BookingService.init.addMovie ("Inception")).st.addMovie ("INCEPTION")).ret ≠
      (BookingService.init.addMovie ("Inception")).ret := by
  decide

/-- **C6 (amended)**: a second `addMovie` (resp. `addTheater`) whose title
(resp. name) differs only by letter case fails as a duplicate: it returns
the sentinel `-1`, reports the id of the first entity in its "already
exists" diagnostic, and leaves the state — entities, indexes and id
counters — completely unchanged. -/
theorem c6_case_insensitive_duplicate_rejected
    (svc : BookingService) (title title2 name name2 : String)
    (hm : toLower title2 = toLower title)
    (ht : toLower name2 = toLower name)
    (hmfresh : alookup svc.movieNameToId (toLower title) = none)
    (htfresh : alookup svc.theaterNameToId (toLower name) = none) :
    ((svc.addMovie title).st.addMovie title2 =
      ⟨-1, some (svc.addMovie title).ret, (svc.addMovie title).st⟩) ∧
    ((svc.addTheater name).st.addTheater name2 =
      ⟨-1, some (svc.addTheater name).ret, (svc.addTheater name).st⟩) := by
  have h1 : svc.addMovie title =
      ⟨svc.movieCounter + 1, none,
        { svc with
          movieCounter := svc.movieCounter + 1
          movies := (svc.movieCounter + 1,
            ⟨svc.movieCounter + 1, title⟩) :: svc.movies
          movieNameToId :=
            (toLower title, svc.movieCounter + 1) :: svc.movieNameToId }⟩ := by
    simp only [BookingService.addMovie, hmfresh]
  have h2 : svc.addTheater name =
      ⟨svc.theaterCounter + 1, none,
        { svc with
          theaterCounter := svc.theaterCounter + 1
          theaters := (svc.theaterCounter + 1,
            ⟨svc.theaterCounter + 1, name⟩) :: svc.theaters
          theaterNameToId :=
            (toLower name, svc.theaterCounter + 1) :: svc.theaterNameToId }⟩ := by
    simp only [BookingService.addTheater, htfresh]
  constructor
  · rw [h1]
    dsimp only
    simp only [BookingService.addMovie]
    rw [hm]
    simp [alookup]
  · rw [h2]
    dsimp only
    simp only [BookingService.addTheater]
    rw [ht]
    simp [alookup]

/-- Witness for the amended C6 at concrete inputs: "Inception"/"INCEPTION"
and "Cineplex"/"CINEPLEX" on the fresh service. -/
theorem c6_case_insensitive_duplicate_rejected_witness :
    ((BookingService.init.addMovie ("Inception")).st.addMovie ("INCEPTION") =
      ⟨-1, some (BookingService.init.addMovie ("Inception")).ret,
        (BookingService.init.addMovie ("Inception")).st⟩) ∧
    ((BookingService.init.addTheater ("Cineplex")).st.addTheater ("CINEPLEX") =
      ⟨-1, some (BookingService.init.addTheater ("Cineplex")).ret,
        (BookingService.init.addTheater ("Cineplex")).st⟩) :=
  c6_case_insensitive_duplicate_rejected BookingService.init
    ("Inception") ("INCEPTION") ("Cineplex") ("CINEPLEX")
    (by decide) (by decide) (by decide) (by decide)

/-! ### State invariants over operation sequences -/

/-- Well-formedness of one show: full-size seat vector and a truthful cached
count of free seats. -/
def ShowWF (sh : Show) : Prop :=
  sh.seats.length = TOTAL_SEATS ∧
  sh.availableCount = Int.ofNat (sh.seats.countP (fun b => !b))

/-- Invariant every operation maintains: all shows well-formed, show ids
bounded by the show counter, and a pair absent from `showLookup` has no
show in the primary map. -/
def ReachInv (svc : BookingService) : Prop :=
  (∀ p ∈ svc.shows, ShowWF p.2) ∧
  (∀ p ∈ svc.shows, p.1 ≤ svc.showCounter) ∧
  (∀ m t : Int, alookup svc.showLookup (m, t) = none →
    svc.shows.countP (fun p => decide (p.2.movieId = m ∧ p.2.theaterId = t)) = 0)

/-- The show `createShow` inserts on success. -/
def freshShow (movieId theaterId : Int) : Show :=
  ⟨movieId, theaterId, List.replicate TOTAL_SEATS false, Int.ofNat TOTAL_SEATS⟩

/-- The fresh service satisfies the invariant. -/
theorem reachInv_init : ReachInv BookingService.init := by
  refine ⟨?_, ?_, ?_⟩
  · intro p hp
    simp [BookingService.init] at hp
  · intro p hp
    simp [BookingService.init] at hp
  · intro m t _
    rfl

/-- Every single operation preserves the invariant. -/
theorem reachInv_applyOp (svc : BookingService) (op : Op) (h : ReachInv svc) :
    ReachInv (applyOp svc op) := by
  cases op with
  | addMovie t =>
    simp only [applyOp, BookingService.addMovie]
    cases alookup svc.movieNameToId (toLower t) with
    | none => exact h
    | some eid => exact h
  | addTheater n =>
    simp only [applyOp, BookingService.addTheater]
    cases alookup svc.theaterNameToId (toLower n) with
    | none => exact h
    | some eid => exact h
  | getAvailableSeats s => exact h
  | createShow m t =>
    simp only [applyOp, BookingService.createShow]
    split
    · exact h
    · split
      · exact h
      · split
        · exact h
        · rename_i h1 h2 h3
          refine ⟨?_, ?_, ?_⟩
          · intro p hp
            cases List.mem_cons.mp hp with
            | inl he =>
              rw [he]
              constructor
              · simp
              · dsimp only
                decide
            | inr ht => exact h.1 p ht
          · intro p hp
            cases List.mem_cons.mp hp with
            | inl he =>
              rw [he]
            | inr ht =>
              have := h.2.1 p ht
              dsimp only
              omega
          · intro m2 t2 hlk
            simp only [alookup] at hlk
            split at hlk
            · exact absurd hlk (by simp)
            · rename_i hne
              simp only [List.countP_cons]
              rw [h.2.2 m2 t2 hlk]
              have hne2 : ¬(m = m2 ∧ t = t2) := by
                intro hmt
                exact hne (by rw [hmt.1, hmt.2])
              simp [hne2]
  | bookSeats s lbls =>
    simp only [applyOp]
    cases hsh : alookup svc.shows s with
    | none =>
      simp only [BookingService.bookSeats, hsh]
      exact h
    | some sh =>
      cases hc : collectSeatIndices sh.seats lbls [] with
      | none =>
        simp only [BookingService.bookSeats, hsh, hc]
        exact h
      | some idxs =>
        rw [bookSeats_of_collect_some svc s sh lbls idxs hsh hc]
        dsimp only
        have hshmem := alookup_mem svc.shows s sh hsh
        have hwf : ShowWF sh := h.1 (s, sh) hshmem
        obtain ⟨heq, hv, _, hf, hnd⟩ := collectSeatIndices_sound sh.seats lbls [] idxs hc
        have hok : ∀ i ∈ idxs, i < sh.seats.length ∧ sh.seats.getD i false = false := by
          intro i hi
          rw [heq] at hi
          simp only [List.reverse_nil, List.nil_append] at hi
          rcases List.mem_map.mp hi with ⟨l, hl, he⟩
          have hvl := hv l hl
          rcases seatIndexFromLabel_cases l with hneg | ⟨_, hlt⟩
          · omega
          · refine ⟨?_, ?_⟩
            · rw [hwf.1]
              simp only [Int.ofNat_eq_coe] at hlt
              omega
            · rw [← he]
              exact hf l hl
        have hcnt := markSeats_countP idxs sh.seats (hnd List.nodup_nil) hok
        have hwf2 : ShowWF (bookedShow sh idxs) := by
          constructor
          · unfold bookedShow
            dsimp only
            rw [markSeats_length, hwf.1]
          · unfold bookedShow
            dsimp only
            have hav := hwf.2
            simp only [Int.ofNat_eq_coe] at hav ⊢
            omega
        refine ⟨?_, ?_, ?_⟩
        · intro p hp
          cases aupdate_mem svc.shows s (bookedShow sh idxs) p hp with
          | inl hin => exact h.1 p hin
          | inr hnew =>
            rw [hnew]
            exact hwf2
        · intro p hp
          cases aupdate_mem svc.shows s (bookedShow sh idxs) p hp with
          | inl hin => exact h.2.1 p hin
          | inr hnew =>
            rw [hnew]
            exact h.2.1 (s, sh) hshmem
        · intro m2 t2 hlk
          have hpred :
              (fun p : Int × Show =>
                decide (p.2.movieId = m2 ∧ p.2.theaterId = t2)) (s, bookedShow sh idxs) =
              (fun p : Int × Show =>
                decide (p.2.movieId = m2 ∧ p.2.theaterId = t2)) (s, sh) := rfl
          rw [countP_aupdate _ svc.shows s (bookedShow sh idxs) sh hsh hpred]
          exact h.2.2 m2 t2 hlk

/-- The invariant holds in every reachable state. -/
theorem reachInv_runOps (ops : List Op) : ReachInv (runOps ops) := by
  have haux : ∀ (l : List Op) (svc : BookingService), ReachInv svc →
      ReachInv (l.foldl applyOp svc) := by
    intro l
    induction l with
    | nil =>
      intro svc h
      exact h
    | cons op rest ih =>
      intro svc h
      exact ih (applyOp svc op) (reachInv_applyOp svc op h)
  exact haux ops BookingService.init reachInv_init

/-- **C3**: in every state reachable by any sequence of operations
(`addMovie`, `addTheater`, `createShow`, `bookSeats`, `getAvailableSeats`),
every show's cached `availableCount` equals the number of `false`
(unoccupied) entries of its seat vector — `createShow` establishes it and
every successful or failed booking preserves it. -/
theorem c3_cached_count_invariant :
    ∀ (ops : List Op) (p : Int × Show), p ∈ (runOps ops).shows →
      p.2.availableCount = Int.ofNat (p.2.seats.countP (fun b => !b)) := by
  intro ops p hp
  exact ((reachInv_runOps ops).1 p hp).2

/-- Witness for C3: the cached count of the sample run's show equals its
counted free seats. -/
theorem c3_cached_count_invariant_witness :
    ((1 : Int), sampleShow).2.availableCount =
      Int.ofNat (((1 : Int), sampleShow).2.seats.countP (fun b => !b)) :=
  c3_cached_count_invariant sampleOps (1, sampleShow) (by decide)

/-- The element just inserted is in the set. -/
theorem mem_insertSetI_self (x : Int) (s : List Int) : x ∈ insertSetI x s := by
  unfold insertSetI
  by_cases hx : x ∈ s
  · rw [if_pos hx]
    exact hx
  · rw [if_neg hx]
    exact List.mem_cons_self x s

/-- After `movieToTheaters_[m].insert(t)` the theater is recorded under the
movie. -/
theorem addTheaterForMovie_self (mm : List (Int × List Int)) (m t : Int) :
    ∃ ts, alookup (addTheaterForMovie mm m t) m = some ts ∧ t ∈ ts := by
  unfold addTheaterForMovie
  cases hq : alookup mm m with
  | none =>
    refine ⟨[t], ?_, List.mem_cons_self t []⟩
    simp [alookup]
  | some s =>
    refine ⟨insertSetI t s, ?_, mem_insertSetI_self t s⟩
    exact alookup_aupdate_self mm m _ (by rw [hq]; simp)

/-- **C7**: in any reachable state, `createShow` fails with `-1` and no state
change when the movie id is unknown, the theater id is unknown, or the pair
already has a show; on success it returns the freshly minted show id
(`showCounter + 1`, unused before), installs an all-free show with
`availableCount = TOTAL_SEATS`, updates the pair-lookup index, the
active-movie set and the movie-to-theaters index, makes an identical second
call fail leaving the new state unchanged, and exactly one show exists for
the pair. -/
theorem c7_createShow_contract
    (svc : BookingService) (movieId theaterId : Int)
    (hreach : ∃ ops, svc = runOps ops) :
    (alookup svc.movies movieId = none →
      svc.createShow movieId theaterId = (-1, svc)) ∧
    (alookup svc.theaters theaterId = none →
      svc.createShow movieId theaterId = (-1, svc)) ∧
    (alookup svc.showLookup (movieId, theaterId) ≠ none →
      svc.createShow movieId theaterId = (-1, svc)) ∧
    (alookup svc.movies movieId ≠ none →
      alookup svc.theaters theaterId ≠ none →
      alookup svc.showLookup (movieId, theaterId) = none →
      (svc.createShow movieId theaterId).1 = svc.showCounter + 1 ∧
      alookup svc.shows (svc.showCounter + 1) = none ∧
      alookup (svc.createShow movieId theaterId).2.shows (svc.showCounter + 1) =
        some (freshShow movieId theaterId) ∧
      alookup (svc.createShow movieId theaterId).2.showLookup (movieId, theaterId) =
        some (svc.showCounter + 1) ∧
      movieId ∈ (svc.createShow movieId theaterId).2.activeMovies ∧
      (∃ ts, alookup (svc.createShow movieId theaterId).2.movieToTheaters movieId =
        some ts ∧ theaterId ∈ ts) ∧
      (svc.createShow movieId theaterId).2.createShow movieId theaterId =
        (-1, (svc.createShow movieId theaterId).2) ∧
      (svc.createShow movieId theaterId).2.shows.countP
        (fun p => decide (p.2.movieId = movieId ∧ p.2.theaterId = theaterId)) = 1) := by
  obtain ⟨ops, rfl⟩ := hreach
  have hinv := reachInv_runOps ops
  refine ⟨?_, ?_, ?_, ?_⟩
  · intro h
    simp only [BookingService.createShow, if_pos h]
  · intro h
    by_cases h1 : alookup (runOps ops).movies movieId = none
    · simp only [BookingService.createShow, if_pos h1]
    · simp only [BookingService.createShow, if_neg h1, if_pos h]
  · intro h
    by_cases h1 : alookup (runOps ops).movies movieId = none
    · simp only [BookingService.createShow, if_pos h1]
    · by_cases h2 : alookup (runOps ops).theaters theaterId = none
      · simp only [BookingService.createShow, if_neg h1, if_pos h2]
      · simp only [BookingService.createShow, if_neg h1, if_neg h2, if_pos h]
  · intro h1 h2 h3
    have hred : (runOps ops).createShow movieId theaterId =
        ((runOps ops).showCounter + 1,
          { runOps ops with
            showCounter := (runOps ops).showCounter + 1
            shows := ((runOps ops).showCounter + 1,
              freshShow movieId theaterId) :: (runOps ops).shows
            showLookup := ((movieId, theaterId),
              (runOps ops).showCounter + 1) :: (runOps ops).showLookup
            activeMovies := insertSetI movieId (runOps ops).activeMovies
            movieToTheaters :=
              addTheaterForMovie (runOps ops).movieToTheaters movieId theaterId }) := by
      have hnotdup :
          ¬(alookup (runOps ops).showLookup (movieId, theaterId) ≠ none) :=
        fun hc => hc h3
      simp only [BookingService.createShow, if_neg h1, if_neg h2, if_neg hnotdup]
      rfl
    rw [hred]
    dsimp only
    refine ⟨rfl, ?_, ?_, ?_, ?_, ?_, ?_, ?_⟩
    · apply alookup_eq_none
      intro p hp
      have := hinv.2.1 p hp
      omega
    · simp [alookup]
    · simp [alookup]
    · exact mem_insertSetI_self movieId (runOps ops).activeMovies
    · exact addTheaterForMovie_self (runOps ops).movieToTheaters movieId theaterId
    · have hdup : alookup (((movieId, theaterId),
          (runOps ops).showCounter + 1) :: (runOps ops).showLookup)
          (movieId, theaterId) ≠ none := by
        simp [alookup]
      simp only [BookingService.createShow, if_neg h1, if_neg h2, if_pos hdup]
    · simp only [List.countP_cons]
      rw [hinv.2.2 movieId theaterId h3]
      simp [freshShow]

/-- The sample run before any show is created. -/
def samplePreOps : List Op :=
  [Op.addMovie ("Inception"), Op.addTheater ("Cineplex")]

/-- The state the pre-show sample run reaches. -/
def samplePreSvc : BookingService := runOps samplePreOps

/-- Witness for C7 at a concrete reachable state: movie 1, theater 1, no
show yet. -/
theorem c7_createShow_contract_witness :
    (alookup samplePreSvc.movies 1 = none →
      samplePreSvc.createShow 1 1 = (-1, samplePreSvc)) ∧
    (alookup samplePreSvc.theaters 1 = none →
      samplePreSvc.createShow 1 1 = (-1, samplePreSvc)) ∧
    (alookup samplePreSvc.showLookup (1, 1) ≠ none →
      samplePreSvc.createShow 1 1 = (-1, samplePreSvc)) ∧
    (alookup samplePreSvc.movies 1 ≠ none →
      alookup samplePreSvc.theaters 1 ≠ none →
      alookup samplePreSvc.showLookup (1, 1) = none →
      (samplePreSvc.createShow 1 1).1 = samplePreSvc.showCounter + 1 ∧
      alookup samplePreSvc.shows (samplePreSvc.showCounter + 1) = none ∧
      alookup (samplePreSvc.createShow 1 1).2.shows (samplePreSvc.showCounter + 1) =
        some (freshShow 1 1) ∧
      alookup (samplePreSvc.createShow 1 1).2.showLookup (1, 1) =
        some (samplePreSvc.showCounter + 1) ∧
      1 ∈ (samplePreSvc.createShow 1 1).2.activeMovies ∧
      (∃ ts, alookup (samplePreSvc.createShow 1 1).2.movieToTheaters 1 =
        some ts ∧ 1 ∈ ts) ∧
      (samplePreSvc.createShow 1 1).2.createShow 1 1 =
        (-1, (samplePreSvc.createShow 1 1).2) ∧
      (samplePreSvc.createShow 1 1).2.shows.countP
        (fun p => decide (p.2.movieId = 1 ∧ p.2.theaterId = 1)) = 1) :=
  c7_createShow_contract samplePreSvc 1 1 ⟨samplePreOps, rfl⟩

/-- **C8**: for an existing show, `getAvailableSeats` returns exactly the
labels of the unoccupied indices in ascending index order; on a fully free
seat vector (as `createShow` installs) it returns all `TOTAL_SEATS` labels,
unique, covering indices `0..TOTAL_SEATS-1` — in particular immediately
after a successful `createShow`. -/
theorem c8_get_available_seats
    (svc : BookingService) (showId : Int) (sh : Show)
    (hsh : alookup svc.shows showId = some sh) :
    (∃ l, svc.getAvailableSeats showId = Except.ok l ∧
      (∀ i : Fin TOTAL_SEATS,
        (seatLabelFromIndex (Int.ofNat i.val) ∈ l ↔
          sh.seats.getD i.val false = false)) ∧
      List.Pairwise (fun a b => seatIndexFromLabel a < seatIndexFromLabel b) l ∧
      (sh.seats = List.replicate TOTAL_SEATS false →
        l = (List.range TOTAL_SEATS).map (fun i => seatLabelFromIndex (Int.ofNat i)) ∧
        l.length = TOTAL_SEATS ∧ l.Nodup)) ∧
    (∀ m t, alookup svc.movies m ≠ none → alookup svc.theaters t ≠ none →
      alookup svc.showLookup (m, t) = none →
      (svc.createShow m t).2.getAvailableSeats (svc.createShow m t).1 =
        Except.ok ((List.range TOTAL_SEATS).map
          (fun i => seatLabelFromIndex (Int.ofNat i)))) := by
  constructor
  · refine ⟨((List.range TOTAL_SEATS).filter
      (fun i => !(sh.seats.getD i false))).map
        (fun i => seatLabelFromIndex (Int.ofNat i)), ?_, ?_, ?_, ?_⟩
    · unfold BookingService.getAvailableSeats
      rw [hsh]
    · intro i
      constructor
      · intro hin
        rcases List.mem_map.mp hin with ⟨j, hj, hje⟩
        have hj2 := List.mem_filter.mp hj
        have hjR : j < TOTAL_SEATS := List.mem_range.mp hj2.1
        have hofeq : Int.ofNat j = Int.ofNat i.val := by
          rw [← seat_roundtrip_nat j hjR, ← seat_roundtrip_nat i.val i.isLt, hje]
        have hjieq : j = i.val := Int.ofNat.inj hofeq
        subst hjieq
        have hb := hj2.2
        simp only [Bool.not_eq_true'] at hb
        exact hb
      · intro hfree
        apply List.mem_map.mpr
        refine ⟨i.val, ?_, rfl⟩
        apply List.mem_filter.mpr
        refine ⟨List.mem_range.mpr i.isLt, ?_⟩
        rw [hfree]
        rfl
    · have h0 : (List.range TOTAL_SEATS).Pairwise
          (fun a b => a < b ∧ a < TOTAL_SEATS ∧ b < TOTAL_SEATS) :=
        List.Pairwise.imp_of_mem
          (fun ha hb hab => ⟨hab, List.mem_range.mp ha, List.mem_range.mp hb⟩)
          (List.pairwise_lt_range TOTAL_SEATS)
      have h1 := h0.filter (fun i => !(sh.seats.getD i false))
      refine h1.map _ (fun a b hab => ?_)
      rw [seat_roundtrip_nat a hab.2.1, seat_roundtrip_nat b hab.2.2]
      exact Int.ofNat_lt.mpr hab.1
    · intro hrepl
      rw [hrepl]
      refine ⟨by decide, by decide, by decide⟩
  · intro m t h1 h2 h3
    have hnotdup : ¬(alookup svc.showLookup (m, t) ≠ none) := fun hc => hc h3
    simp only [BookingService.createShow, if_neg h1, if_neg h2, if_neg hnotdup]
    unfold BookingService.getAvailableSeats
    simp [alookup]

/-- Witness for C8 at the sample state and its show. -/
theorem c8_get_available_seats_witness :
    (∃ l, sampleSvc.getAvailableSeats 1 = Except.ok l ∧
      (∀ i : Fin TOTAL_SEATS,
        (seatLabelFromIndex (Int.ofNat i.val) ∈ l ↔
          sampleShow.seats.getD i.val false = false)) ∧
      List.Pairwise (fun a b => seatIndexFromLabel a < seatIndexFromLabel b) l ∧
      (sampleShow.seats = List.replicate TOTAL_SEATS false →
        l = (List.range TOTAL_SEATS).map (fun i => seatLabelFromIndex (Int.ofNat i)) ∧
        l.length = TOTAL_SEATS ∧ l.Nodup)) ∧
    (∀ m t, alookup sampleSvc.movies m ≠ none → alookup sampleSvc.theaters t ≠ none →
      alookup sampleSvc.showLookup (m, t) = none →
      (sampleSvc.createShow m t).2.getAvailableSeats (sampleSvc.createShow m t).1 =
        Except.ok ((List.range TOTAL_SEATS).map
          (fun i => seatLabelFromIndex (Int.ofNat i)))) :=
  c8_get_available_seats sampleSvc 1 sampleShow (by decide)
